import Mathlib

/-!
Shallow embedding of the claude-code-config-cleaner core: the config
deduplication pipeline (internal/cleaner/dedup.go), the preview data
model (internal/ui/preview.go), the confirmation prompt
(internal/ui/confirm.go) and the stale-project detector, together with
theorems checking the specification's claims about them.

Machine integers (Go int64 sizes) are modelled as Int; file contents are
modelled at the parsed-document level (a settings file is a `Settings`
value, a possibly-absent file is an `Option Settings`); fallible
operations return `Except String`.
-/

namespace CCC

/-- Mirrors `claude.Permissions` (three ordered permission pattern lists). -/
structure Permissions where
  allow : List String
  deny : List String
  ask : List String
deriving Repr, DecidableEq

/-- Mirrors `claude.Settings` (one `permissions` object). -/
structure Settings where
  permissions : Permissions
deriving Repr, DecidableEq

/-- Modelled from the spec: `internal/claude/config.go` is not among the
sources (only its plan and callers are). The plan declares
`func (s *Settings) Diff(other *Settings) *Settings // Returns entries in s not in other`;
per category, keep the entries of `s` that do not occur in `other`. -/
def Settings.Diff (s other : Settings) : Settings :=
  { permissions :=
    { allow := s.permissions.allow.filter (fun v => !(other.permissions.allow.contains v))
      deny := s.permissions.deny.filter (fun v => !(other.permissions.deny.contains v))
      ask := s.permissions.ask.filter (fun v => !(other.permissions.ask.contains v)) } }

/-- Modelled from the spec: `internal/claude/config.go` is not among the
sources. The spec reads "leaves `local` with zero entries across all
three categories", so a settings document is empty when all three
permission lists are empty. -/
def Settings.IsEmpty (s : Settings) : Bool :=
  s.permissions.allow.isEmpty && s.permissions.deny.isEmpty && s.permissions.ask.isEmpty

/-- Mirrors `cleaner.DedupResult`. -/
structure DedupResult where
  localPath : String
  duplicateAllow : List String
  duplicateDeny : List String
  duplicateAsk : List String
  suggestDelete : Bool
deriving Repr, DecidableEq

/-- Mirrors `DedupResult.HasDuplicates`. -/
def DedupResult.HasDuplicates (r : DedupResult) : Bool :=
  decide (0 < r.duplicateAllow.length) ||
  decide (0 < r.duplicateDeny.length) ||
  decide (0 < r.duplicateAsk.length)

/-- Mirrors `DedupResult.TotalDuplicates`. -/
def DedupResult.TotalDuplicates (r : DedupResult) : Nat :=
  r.duplicateAllow.length + r.duplicateDeny.length + r.duplicateAsk.length

/-- Mirrors `cleaner.findDuplicates`: entries of `loc` that also occur in
`glob`; the Go code returns nil when either list is empty, and otherwise
filters `loc` by membership in a set built from `glob`. -/
def findDuplicates (loc glob : List String) : List String :=
  if loc.isEmpty || glob.isEmpty then []
  else loc.filter (fun v => glob.contains v)

/-- Mirrors `cleaner.removeEntries`: entries of `slice` that are not in
the set built from `toRemove`; nil when `slice` is empty. -/
def removeEntries (slice toRemove : List String) : List String :=
  if slice.isEmpty then []
  else slice.filter (fun v => !(toRemove.contains v))

/-- Mirrors `cleaner.DeduplicateConfig`: per-category duplicates via
`findDuplicates`, and `suggestDelete` from `local.Diff(global).IsEmpty()`. -/
def DeduplicateConfig (localPath : String) (glob loc : Settings) : DedupResult :=
  { localPath := localPath
    duplicateAllow := findDuplicates loc.permissions.allow glob.permissions.allow
    duplicateDeny := findDuplicates loc.permissions.deny glob.permissions.deny
    duplicateAsk := findDuplicates loc.permissions.ask glob.permissions.ask
    suggestDelete := (loc.Diff glob).IsEmpty }

/-- Mirrors `ui.Action`. -/
inductive Action where
  | delete
  | modify
  | create
deriving Repr, DecidableEq

/-- Mirrors `ui.Change`. -/
structure Change where
  action : Action
  path : String
  description : String
  size : Int
deriving Repr, DecidableEq

/-- Mirrors `ui.Preview`. -/
structure Preview where
  title : String
  changes : List Change
  kept : List Change
deriving Repr, DecidableEq

/-- Mirrors `cleaner.formatDuplicateDescription`: the Go code renders the
count as the single rune `total + '0'`. -/
def formatDuplicateDescription (r : DedupResult) : String :=
  if r.TotalDuplicates = 1 then "1 duplicate entry to remove"
  else String.mk [Char.ofNat (r.TotalDuplicates + 48)] ++ " duplicate entries to remove"

/-- Mirrors the loop body of `cleaner.BuildDedupPreview`: one Change per
result, Delete when `suggestDelete`, otherwise Modify. -/
def dedupChange (r : DedupResult) : Change :=
  if r.suggestDelete then
    { action := Action.delete
      path := r.localPath
      description := "Empty after deduplication, will be deleted"
      size := 0 }
  else
    { action := Action.modify
      path := r.localPath
      description := formatDuplicateDescription r
      size := 0 }

/-- Mirrors `cleaner.BuildDedupPreview`: the Go loop appends `dedupChange r`
for every result in order. -/
def BuildDedupPreview (results : List DedupResult) : Preview :=
  { title := "Config Deduplication"
    changes := results.map dedupChange
    kept := [] }

/-- Mirrors `cleaner.ApplyDedup` over the abstract state of the local
settings file (`none` when the file does not exist): return early on
dry-run, then on a missing file; delete the file when `suggestDelete`;
otherwise rewrite it with the duplicate entries removed from each list. -/
def ApplyDedup (st : Option Settings) (r : DedupResult) (dryRun : Bool) :
    Except String (Option Settings) :=
  if dryRun then Except.ok st
  else
    match st with
    | none => Except.ok none
    | some settings =>
      if r.suggestDelete then Except.ok none
      else
        Except.ok (some
          { permissions :=
            { allow := removeEntries settings.permissions.allow r.duplicateAllow
              deny := removeEntries settings.permissions.deny r.duplicateDeny
              ask := removeEntries settings.permissions.ask r.duplicateAsk } })

/-- Abstract read-only view of the filesystem as `cleaner.FindLocalConfigs`
consumes it: whether the search path exists, and the regular files that
`filepath.Walk` visits under it, in walk order. -/
structure FileSystem where
  pathExists : String → Bool
  walkFiles : List String

/-- Mirrors the `filepath.Base(dir) == ".claude" && filepath.Base(path) == "settings.json"`
test of `cleaner.FindLocalConfigs`, on slash-separated paths. -/
def isLocalConfig (path : String) : Bool :=
  let comps := path.splitOn "/"
  comps.getLastD "" == "settings.json" && comps.dropLast.getLastD "" == ".claude"

/-- Mirrors `cleaner.FindLocalConfigs`: an empty result (nil error) when
the search path does not exist, otherwise the walked files that are
`.claude/settings.json` entries, in walk order (walk errors are skipped
inside the callback, so the walk itself never fails). -/
def FindLocalConfigs (fs : FileSystem) (searchPath : String) :
    Except String (List String) :=
  if !(fs.pathExists searchPath) then Except.ok []
  else Except.ok (fs.walkFiles.filter isLocalConfig)

/-- Mirrors `claude.Project` (time.Time modelled as Nat). -/
structure Project where
  encodedName : String
  actualPath : String
  sessionIDs : List String
  totalSize : Int
  lastUsed : Nat
  fileCount : Nat
deriving Repr, DecidableEq

/-- Modelled from the spec: `Project.Exists` is a panic stub and
`internal/cleaner/stale.go` is not among the sources. The spec's
contract is `isStale(project) = project.resolvedPath != "" && !existsOnDisk(project.resolvedPath)`;
`ex` is the `existsOnDisk` capability. -/
def isStale (ex : String → Bool) (p : Project) : Bool :=
  !(p.actualPath == "") && !(ex p.actualPath)

/-- Modelled from the spec: `internal/cleaner/stale.go` is not among the
sources; its plan declares `func FindStaleProjects(projects []Project) []Project`,
keeping the projects classified stale. -/
def FindStaleProjects (ex : String → Bool) (projects : List Project) :
    List Project :=
  projects.filter (isStale ex)

/-- Modelled from the spec: the Delete Change the PreviewBuilder emits
for a stale project describes the project's backing directory and
aggregate size. -/
def staleDeleteChange (p : Project) : Change :=
  { action := Action.delete
    path := p.encodedName
    description := "Stale project, directory no longer exists"
    size := p.totalSize }

/-- Modelled from the spec: the stale-project PreviewBuilder emits one
Delete Change per stale project and one kept Change per live project. -/
def BuildStalePreview (ex : String → Bool) (projects : List Project) :
    Preview :=
  { title := "Stale Projects"
    changes := (FindStaleProjects ex projects).map staleDeleteChange
    kept := (projects.filter (fun p => !(isStale ex p))).map (fun p =>
      { action := Action.delete
        path := p.encodedName
        description := "Active project"
        size := p.totalSize }) }

/-- Mirrors `ui.ConfirmResult`. -/
inductive ConfirmResult where
  | yes
  | no
  | error
deriving Repr, DecidableEq

/-- Modelled from the spec: the body of `Confirmer.Confirm` in
internal/ui/confirm.go is a panic stub. Per the spec's Confirmer state
machine, one line is read from the input (`none` when the stream is
closed or end-of-input is hit before a line arrives); the line is
trimmed of surrounding whitespace and matched case-insensitively
against exactly `y` or `yes`, which yields Yes; anything else yields
No. -/
def Confirm (line : Option String) : ConfirmResult :=
  match line with
  | none => ConfirmResult.no
  | some s =>
    let t := s.trim.toLower
    if t == "y" || t == "yes" then ConfirmResult.yes else ConfirmResult.no

/-- The scan-and-classify dedup pipeline as one function of its input
state: discover the local configs under `searchPath`, deduplicate each
(the parsed document supplied by `loadLocal`) against the global
document, and build the preview. -/
def runDedupScan (fs : FileSystem) (searchPath : String) (glob : Settings)
    (loadLocal : String → Settings) : Except String Preview :=
  match FindLocalConfigs fs searchPath with
  | Except.error e => Except.error e
  | Except.ok configs =>
    Except.ok (BuildDedupPreview
      (configs.map (fun p => DeduplicateConfig p glob (loadLocal p))))

/-! Helper lemmas about the dedup core. -/

theorem findDuplicates_eq_filter (l g : List String) :
    findDuplicates l g = l.filter (fun v => g.contains v) := by
  rcases l with _ | ⟨a, l⟩
  · simp [findDuplicates]
  · rcases g with _ | ⟨b, g⟩
    · simp [findDuplicates, List.filter_eq_nil_iff]
    · simp [findDuplicates]

theorem contains_filter_contains (l g : List String) (x : String)
    (hx : x ∈ l) :
    (l.filter (fun v => g.contains v)).contains x = g.contains x := by
  by_cases h : g.contains x = true
  · rw [h]
    exact List.elem_iff.mpr (List.mem_filter.mpr ⟨hx, h⟩)
  · rw [Bool.eq_false_iff.mpr h]
    rw [Bool.eq_false_iff]
    intro hc
    exact h (List.mem_filter.mp (List.elem_iff.mp hc)).2

theorem removeEntries_findDuplicates (l g : List String) :
    removeEntries l (findDuplicates l g) = l.filter (fun v => !(g.contains v)) := by
  rcases l with _ | ⟨a, l⟩
  · simp [removeEntries]
  · rw [removeEntries, findDuplicates_eq_filter, if_neg (by simp)]
    exact List.filter_congr (fun x hx => by
      rw [contains_filter_contains (a :: l) g x hx])

theorem findDuplicates_of_unique (l g : List String) :
    findDuplicates (l.filter (fun v => !(g.contains v))) g = [] := by
  rw [findDuplicates_eq_filter, List.filter_eq_nil_iff]
  intro x hx
  have hnc := (List.mem_filter.mp hx).2
  simp only [Bool.not_eq_true'] at hnc
  intro hmem
  have hc : g.contains x = true := hmem
  rw [hnc] at hc
  exact Bool.false_ne_true hc

theorem contains_eq_decide_mem (g : List String) (v : String) :
    g.contains v = decide (v ∈ g) := by
  by_cases h : v ∈ g
  · simp [h, List.elem_iff.mpr h]
  · have hd : decide (v ∈ g) = false := by simp [h]
    rw [hd, Bool.eq_false_iff]
    exact fun hc => h (List.elem_iff.mp hc)

/-- C4: per category, the duplicate list computed by `DeduplicateConfig`
is the sub-sequence of the local category's entries that appear anywhere
in the corresponding global category (exact string equality), in local
order, retaining repeats of the local list. -/
theorem DeduplicateConfig_duplicates_spec (path : String) (glob loc : Settings) :
    (DeduplicateConfig path glob loc).duplicateAllow
      = loc.permissions.allow.filter (fun v => decide (v ∈ glob.permissions.allow))
    ∧ (DeduplicateConfig path glob loc).duplicateDeny
      = loc.permissions.deny.filter (fun v => decide (v ∈ glob.permissions.deny))
    ∧ (DeduplicateConfig path glob loc).duplicateAsk
      = loc.permissions.ask.filter (fun v => decide (v ∈ glob.permissions.ask)) := by
  refine ⟨?_, ?_, ?_⟩ <;>
    · show findDuplicates _ _ = _
      rw [findDuplicates_eq_filter]
      exact List.filter_congr (fun x _ => contains_eq_decide_mem _ x)

/-- C3: `suggestDelete` is true exactly when removing every computed
duplicate from each of the three permission categories leaves the local
document with zero entries across all three categories. -/
theorem suggestDelete_iff_empty_after_removal (path : String) (glob loc : Settings) :
    (DeduplicateConfig path glob loc).suggestDelete = true ↔
      (removeEntries loc.permissions.allow (DeduplicateConfig path glob loc).duplicateAllow = []
       ∧ removeEntries loc.permissions.deny (DeduplicateConfig path glob loc).duplicateDeny = []
       ∧ removeEntries loc.permissions.ask (DeduplicateConfig path glob loc).duplicateAsk = []) := by
  show (Settings.Diff loc glob).IsEmpty = true ↔ _
  simp only [DeduplicateConfig, removeEntries_findDuplicates]
  simp only [Settings.Diff, Settings.IsEmpty, List.isEmpty_iff, Bool.and_eq_true]
  exact and_assoc

/-- C5: applying a non-dry-run dedup that rewrites the local document and
re-running `DeduplicateConfig` on the rewritten document against the
same global document yields zero duplicates in every category. -/
theorem dedup_roundtrip (path : String) (glob loc loc' : Settings)
    (h : ApplyDedup (some loc) (DeduplicateConfig path glob loc) false
          = Except.ok (some loc')) :
    (DeduplicateConfig path glob loc').duplicateAllow = []
    ∧ (DeduplicateConfig path glob loc').duplicateDeny = []
    ∧ (DeduplicateConfig path glob loc').duplicateAsk = [] := by
  rw [ApplyDedup] at h
  by_cases hs : (DeduplicateConfig path glob loc).suggestDelete = true
  · simp [hs] at h
  · simp only [Bool.false_eq_true, if_false, hs, if_neg] at h
    have hloc : loc' =
        { permissions :=
          { allow := removeEntries loc.permissions.allow
              (DeduplicateConfig path glob loc).duplicateAllow
            deny := removeEntries loc.permissions.deny
              (DeduplicateConfig path glob loc).duplicateDeny
            ask := removeEntries loc.permissions.ask
              (DeduplicateConfig path glob loc).duplicateAsk } } := by
      cases h
      rfl
    subst hloc
    refine ⟨?_, ?_, ?_⟩ <;>
      · show findDuplicates _ _ = _
        simp only [DeduplicateConfig, removeEntries_findDuplicates]
        exact findDuplicates_of_unique _ _

/-- Witness for C5 at a concrete local/global pair with a partial
duplicate, exercising the rewrite branch of `ApplyDedup`. -/
theorem dedup_roundtrip_witness :
    (DeduplicateConfig "/p/.claude/settings.json"
        ⟨⟨["Bash(git:*)", "Read(**)"], [], []⟩⟩
        ⟨⟨["Bash(npm:*)"], [], []⟩⟩).duplicateAllow = []
    ∧ (DeduplicateConfig "/p/.claude/settings.json"
        ⟨⟨["Bash(git:*)", "Read(**)"], [], []⟩⟩
        ⟨⟨["Bash(npm:*)"], [], []⟩⟩).duplicateDeny = []
    ∧ (DeduplicateConfig "/p/.claude/settings.json"
        ⟨⟨["Bash(git:*)", "Read(**)"], [], []⟩⟩
        ⟨⟨["Bash(npm:*)"], [], []⟩⟩).duplicateAsk = [] :=
  dedup_roundtrip "/p/.claude/settings.json"
    ⟨⟨["Bash(git:*)", "Read(**)"], [], []⟩⟩
    ⟨⟨["Bash(git:*)", "Bash(npm:*)", "Read(**)"], [], []⟩⟩
    ⟨⟨["Bash(npm:*)"], [], []⟩⟩
    rfl

/-- C6 counterexample: a dedup result with no duplicates in any category
and `suggestDelete` false still contributes one pending Change (a Modify
Change), where the claim says it contributes none. -/
theorem BuildDedupPreview_no_dup_counterexample :
    (BuildDedupPreview
        [⟨"/p/.claude/settings.json", [], [], [], false⟩]).changes
      = [⟨Action.modify, "/p/.claude/settings.json",
          "0 duplicate entries to remove", 0⟩] := by
  decide

/-- C6 amended: the preview contains exactly one pending Change per
dedup result, in order: a Delete Change when that result's
`suggestDelete` is true and a Modify Change otherwise (also when the
result has no duplicates), always carrying the result's local path. -/
theorem BuildDedupPreview_one_change_per_result (results : List DedupResult)
    (i : Nat) (hi : i < results.length) :
    (BuildDedupPreview results).changes.length = results.length
    ∧ ∀ hc : i < (BuildDedupPreview results).changes.length,
        ((BuildDedupPreview results).changes.get ⟨i, hc⟩).path
          = (results.get ⟨i, hi⟩).localPath
        ∧ ((BuildDedupPreview results).changes.get ⟨i, hc⟩).action
          = (if (results.get ⟨i, hi⟩).suggestDelete then Action.delete
             else Action.modify) := by
  refine ⟨by simp [BuildDedupPreview], ?_⟩
  intro hc
  have hg : (BuildDedupPreview results).changes.get ⟨i, hc⟩
      = dedupChange (results.get ⟨i, hi⟩) := by
    simp [BuildDedupPreview]
  rw [hg]
  by_cases hs : (results.get ⟨i, hi⟩).suggestDelete = true <;>
    simp only [List.get_eq_getElem] at hs <;> simp [dedupChange, hs]

/-- Witness for C6's amended claim at a two-element result list,
checked at the Delete entry. -/
theorem BuildDedupPreview_one_change_per_result_witness :
    (BuildDedupPreview
        [⟨"/a/.claude/settings.json", ["Bash(git:*)"], [], [], false⟩,
         ⟨"/b/.claude/settings.json", [], [], [], true⟩]).changes.length = 2
    ∧ ∀ hc : 1 < (BuildDedupPreview
        [⟨"/a/.claude/settings.json", ["Bash(git:*)"], [], [], false⟩,
         ⟨"/b/.claude/settings.json", [], [], [], true⟩]).changes.length,
        ((BuildDedupPreview
            [⟨"/a/.claude/settings.json", ["Bash(git:*)"], [], [], false⟩,
             ⟨"/b/.claude/settings.json", [], [], [], true⟩]).changes.get
          ⟨1, hc⟩).path
          = (([⟨"/a/.claude/settings.json", ["Bash(git:*)"], [], [], false⟩,
              ⟨"/b/.claude/settings.json", [], [], [], true⟩] :
              List DedupResult).get ⟨1, by decide⟩).localPath
        ∧ ((BuildDedupPreview
            [⟨"/a/.claude/settings.json", ["Bash(git:*)"], [], [], false⟩,
             ⟨"/b/.claude/settings.json", [], [], [], true⟩]).changes.get
          ⟨1, hc⟩).action
          = (if (([⟨"/a/.claude/settings.json", ["Bash(git:*)"], [], [], false⟩,
                  ⟨"/b/.claude/settings.json", [], [], [], true⟩] :
                  List DedupResult).get ⟨1, by decide⟩).suggestDelete
             then Action.delete else Action.modify) :=
  BuildDedupPreview_one_change_per_result
    [⟨"/a/.claude/settings.json", ["Bash(git:*)"], [], [], false⟩,
     ⟨"/b/.claude/settings.json", [], [], [], true⟩] 1 (by decide)

/-- C7: with dry-run off, when the local settings file no longer exists,
`ApplyDedup` returns no error and leaves the filesystem state unchanged,
for every dedup result. -/
theorem ApplyDedup_missing_file_noop (r : DedupResult) :
    ApplyDedup none r false = Except.ok none := rfl

/-- C9: with `dryRun = true`, `ApplyDedup` returns no error and leaves
the state of the local settings file exactly as it was, whether the file
exists or not. -/
theorem ApplyDedup_dryRun_noop (st : Option Settings) (r : DedupResult) :
    ApplyDedup st r true = Except.ok st := rfl

/-- C10: when the search path does not exist, `FindLocalConfigs` returns
an empty list and no error. -/
theorem FindLocalConfigs_missing_path (fs : FileSystem) (searchPath : String)
    (h : fs.pathExists searchPath = false) :
    FindLocalConfigs fs searchPath = Except.ok [] := by
  rw [FindLocalConfigs, h]
  rfl

/-- Witness for C10 at a concrete filesystem with no paths present. -/
theorem FindLocalConfigs_missing_path_witness :
    FindLocalConfigs ⟨fun _ => false, []⟩ "/nonexistent/path" = Except.ok [] :=
  FindLocalConfigs_missing_path ⟨fun _ => false, []⟩ "/nonexistent/path" rfl

/-- C1: a project is classified stale exactly when its resolved path is
non-empty and absent on disk; a project with an empty resolved path is
never stale; a project whose resolved path exists never lands in the
stale list, whose elements are exactly those that receive the Delete
Changes of the stale preview. -/
theorem isStale_spec (ex : String → Bool) (p : Project)
    (projects : List Project) :
    (isStale ex p = true ↔ (p.actualPath ≠ "" ∧ ex p.actualPath = false))
    ∧ (p.actualPath = "" → isStale ex p = false)
    ∧ (ex p.actualPath = true → p ∉ FindStaleProjects ex projects)
    ∧ (BuildStalePreview ex projects).changes
        = (FindStaleProjects ex projects).map staleDeleteChange := by
  refine ⟨?_, ?_, ?_, rfl⟩
  · rw [isStale]
    simp [Bool.and_eq_true, Bool.not_eq_true']
  · intro h
    simp [isStale, h]
  · intro hex hmem
    have hst := List.of_mem_filter hmem
    rw [isStale, hex] at hst
    simp at hst

/-- Witness for C1: a project whose resolved path exists on disk is not
in the stale list. -/
theorem isStale_spec_witness :
    (fun s => s == "/Users/mhk/Code/ccc") "/Users/mhk/Code/ccc" = true
    ∧ (⟨"-Users-mhk-Code-ccc", "/Users/mhk/Code/ccc", ["s1"], 10, 5, 1⟩ :
        Project) ∉
        FindStaleProjects (fun s => s == "/Users/mhk/Code/ccc")
          [⟨"-Users-mhk-Code-ccc", "/Users/mhk/Code/ccc", ["s1"], 10, 5, 1⟩] :=
  ⟨by decide,
   (isStale_spec (fun s => s == "/Users/mhk/Code/ccc")
      ⟨"-Users-mhk-Code-ccc", "/Users/mhk/Code/ccc", ["s1"], 10, 5, 1⟩
      [⟨"-Users-mhk-Code-ccc", "/Users/mhk/Code/ccc", ["s1"], 10, 5, 1⟩]).2.2.1
     (by decide)⟩

/-- C2: reading a line at the confirmation prompt yields Yes exactly
when the line, trimmed of surrounding whitespace, matches `y` or `yes`
case-insensitively; a closed stream (`none`) yields No, and no input
ever yields anything other than Yes or No. -/
theorem Confirm_spec (line : String) :
    (Confirm (some line) = ConfirmResult.yes ↔
      (line.trim.toLower = "y" ∨ line.trim.toLower = "yes"))
    ∧ Confirm none = ConfirmResult.no
    ∧ (Confirm (some line) = ConfirmResult.yes
       ∨ Confirm (some line) = ConfirmResult.no) := by
  refine ⟨?_, rfl, ?_⟩
  · rw [Confirm]
    by_cases h : (line.trim.toLower == "y" || line.trim.toLower == "yes") = true
    · rw [if_pos h]
      simp only [Bool.or_eq_true, beq_iff_eq] at h
      simp [h]
    · rw [if_neg h]
      simp only [Bool.or_eq_true, beq_iff_eq] at h
      push_neg at h
      simp [h.1, h.2]
  · rw [Confirm]
    by_cases h : (line.trim.toLower == "y" || line.trim.toLower == "yes") = true
    · exact Or.inl (by rw [if_pos h])
    · exact Or.inr (by rw [if_neg h])

/-- C8: the scan-and-classify dedup pipeline is deterministic — two runs
against identical, unmodified input produce identical Previews, content
and order included. -/
theorem runDedupScan_deterministic (fs fs' : FileSystem) (sp sp' : String)
    (glob glob' : Settings) (load load' : String → Settings)
    (hfs : fs = fs') (hsp : sp = sp') (hglob : glob = glob')
    (hload : load = load') :
    runDedupScan fs sp glob load = runDedupScan fs' sp' glob' load' := by
  rw [hfs, hsp, hglob, hload]

/-- Witness for C8 at a concrete one-config filesystem. -/
theorem runDedupScan_deterministic_witness :
    runDedupScan ⟨fun _ => true, ["/p/.claude/settings.json"]⟩ "/p"
        ⟨⟨["Bash(git:*)"], [], []⟩⟩ (fun _ => ⟨⟨["Bash(git:*)"], [], []⟩⟩)
      = runDedupScan ⟨fun _ => true, ["/p/.claude/settings.json"]⟩ "/p"
        ⟨⟨["Bash(git:*)"], [], []⟩⟩ (fun _ => ⟨⟨["Bash(git:*)"], [], []⟩⟩) :=
  runDedupScan_deterministic _ _ _ _ _ _ _ _ rfl rfl rfl rfl

end CCC
